import Mathlib

/-!  Shallow embedding of the interactive core of the `c4patino/text-editor`
     repository (src/editor/editor.rs, src/util/display.rs, src/util/keymap.rs,
     src/macros.rs), together with theorems settling the specification's
     claims C1-C10 against it.

     Machine integers: cursor coordinates, sizes and offsets are `u16` in the
     source; they are modelled as `Nat` with explicit `% 65536` wrapping (for
     the wrapping `u16` subtractions and casts) and `min _ 65535` for the
     saturating operations.  Buffer lines are `List Char` (columns are byte
     offsets in the source; the model identifies bytes with chars, which agrees
     on the ASCII inputs exercised here).  Fallible code returns `Except`.
     Rust panics (out-of-range indexing) are totalized by no-op/`getD`
     conventions noted at each definition. -/

namespace TextEditor

/-! ### Generic helpers: association lists model `HashMap`, plus `Vec` ops -/

def alookup {α β : Type} [DecidableEq α] : List (α × β) → α → Option β
  | [], _ => none
  | (k, v) :: rest, k2 => if k = k2 then some v else alookup rest k2

def aset {α β : Type} [DecidableEq α] : List (α × β) → α → β → List (α × β)
  | [], k, v => [(k, v)]
  | (k2, v2) :: rest, k, v => if k2 = k then (k, v) :: rest else (k2, v2) :: aset rest k v

/-- `Vec::insert` / `String::insert`, totalized: inserting past the end leaves
the list unchanged (the Rust code panics there). -/
def insertAt {α : Type} : Nat → α → List α → List α
  | 0, a, l => a :: l
  | _ + 1, _, [] => []
  | n + 1, a, x :: xs => x :: insertAt n a xs

/-- `Vec::remove` / `String::remove`, totalized: removing past the end leaves
the list unchanged (the Rust code panics there). -/
def eraseAt {α : Type} : List α → Nat → List α
  | [], _ => []
  | _ :: xs, 0 => xs
  | x :: xs, n + 1 => x :: eraseAt xs n

/-! ### u16 arithmetic -/

/-- `u16::saturating_add`. -/
def satAdd (a b : Nat) : Nat := min (a + b) 65535

/-- Wrapping `u16` addition (release-build overflow semantics). -/
def wAdd (a b : Nat) : Nat := (a + b) % 65536

/-- Wrapping `u16` subtraction `a - b` for `a < 65536`
(release-build underflow semantics). -/
def wSub (a b : Nat) : Nat := (a + 65536 - b % 65536) % 65536

/-- The `as i16` cast of a `u16` value. -/
def toI16 (n : Nat) : Int := ((n % 65536 + 32768) % 65536 : Nat) - 32768

/-- The closure `saturate` in `Cursor::move_by`:
`if delta.is_negative() { pos.saturating_sub(delta.abs() as u16) }
 else { pos.saturating_add(delta as u16) }`. -/
def saturate (pos : Nat) (delta : Int) : Nat :=
  if delta < 0 then pos - delta.natAbs else satAdd pos delta.toNat

/-! ### Text: lines and buffers -/

abbrev Line := List Char
abbrev Buffer := List Line

/-- In-place mutation `buffer[i] = f(buffer[i])`, totalized by `getD`/`set`
no-ops when `i` is out of range (Rust panics there). -/
def updateLine (b : Buffer) (i : Nat) (f : Line → Line) : Buffer :=
  b.set i (f (b.getD i []))

/-- `str::split_whitespace`, accumulator form. -/
def splitWsAux : List Char → Line → List Line
  | [], acc => if acc.isEmpty then [] else [acc]
  | c :: cs, acc =>
    if c.isWhitespace then
      (if acc.isEmpty then splitWsAux cs [] else acc :: splitWsAux cs [])
    else splitWsAux cs (acc ++ [c])

def splitWs (cs : List Char) : List Line := splitWsAux cs []

/-- The CR-stripping `BufRead::lines` applies to a newline-terminated line:
a trailing carriage return is removed. -/
def stripCR (l : Line) : Line := if l.getLast? = some '\r' then l.dropLast else l

/-- Accumulator form of `BufRead::lines`: split on the newline byte, strip a
trailing CR from every newline-terminated chunk, and do not emit a final empty
chunk after a terminating newline. -/
def rustLinesAux : List Char → Line → List Line
  | [], acc => [acc]
  | c :: cs, acc =>
    if c = '\n' then
      stripCR acc :: (if cs.isEmpty then [] else rustLinesAux cs [])
    else rustLinesAux cs (acc ++ [c])

/-- `reader.lines().collect()` in `Editor::load_file`. -/
def rustLines (cs : List Char) : List Line :=
  match cs with
  | [] => []
  | _ => rustLinesAux cs []

/-- `self.buffer.join("\n")` in `Editor::save_file`: the exact bytes written. -/
def joinNL : List Line → List Char
  | [] => []
  | [l] => l
  | l :: ls => l ++ '\n' :: joinNL ls

/-- No carriage return immediately followed by a newline anywhere. -/
def noCRLF : List Char → Bool
  | [] => true
  | [_] => true
  | a :: b :: rest => if a = '\r' ∧ b = '\n' then false else noCRLF (b :: rest)

/-! ### Key events (crossterm `KeyEvent`, restricted to code + modifiers;
the `kind` field is constant `Press` for all events handled here) -/

structure Modifiers where
  ctrl : Bool
  alt : Bool
  shift : Bool
deriving DecidableEq

def Modifiers.plain : Modifiers := ⟨false, false, false⟩

inductive KeyCode where
  | char (c : Char)
  | enter
  | backspace
  | delete
  | esc
  | tab
  | up
  | down
  | left
  | right
  | home
  | endKey
  | pageUp
  | pageDown
  | insertKey
  | f (n : Nat)
deriving DecidableEq

structure KeyEvent where
  code : KeyCode
  modifiers : Modifiers
deriving DecidableEq

/-- An unmodified character key, as produced for plain characters in a
keybinding sequence string. -/
def ch (c : Char) : KeyEvent := ⟨KeyCode.char c, Modifiers.plain⟩

def keyEnter : KeyEvent := ⟨KeyCode.enter, Modifiers.plain⟩

def keyEsc : KeyEvent := ⟨KeyCode.esc, Modifiers.plain⟩

/-- `event_to_digit` (src/util/keymap.rs): matches `KeyEvent { code: Char(c), .. }`
with `c.is_ascii_digit()` — the modifiers are ignored by the pattern. -/
def eventToDigit (ev : KeyEvent) : Option Nat :=
  match ev.code with
  | KeyCode.char c => if c.isDigit then some (c.toNat - 48) else none
  | _ => none

/-! ### Modes -/

inductive Mode where
  | NORMAL
  | COMMAND
  | INSERT
  | VISUAL
deriving DecidableEq

/-! ### Cursor (src/util/display.rs)
`position = (x, y)` (column, row), plus the sticky column `max_column`. -/

structure Cursor where
  x : Nat
  y : Nat
  max_column : Nat
deriving DecidableEq

/-- `Cursor::validate_cursor`: clamp the row into the buffer, then set the
column to `max_column.min(line_len)`.  `buffer[row]` on an empty buffer
panics in Rust; it is totalized with `getD`. -/
def Cursor.validate_cursor (c : Cursor) (buffer : Buffer) : Cursor :=
  let len16 := buffer.length % 65536
  let y := if len16 ≤ c.y then (buffer.length - 1) % 65536 else c.y
  let lineLen := (buffer.getD y []).length % 65536
  ⟨min c.max_column lineLen, y, c.max_column⟩

/-- `Cursor::move_by`: saturating signed adjustment; a nonzero `dx` updates the
sticky column to the saturated new column; then `validate_cursor`. -/
def Cursor.move_by (c : Cursor) (delta : Int × Int) (buffer : Buffer) : Cursor :=
  let x := if delta.1 ≠ 0 then saturate c.x delta.1 else c.x
  let mc := if delta.1 ≠ 0 then x else c.max_column
  let y := if delta.2 ≠ 0 then saturate c.y delta.2 else c.y
  Cursor.validate_cursor ⟨x, y, mc⟩ buffer

/-- `Cursor::move_x`: absolute column; updates the sticky column, then clamps. -/
def Cursor.move_x (c : Cursor) (new_x : Nat) (buffer : Buffer) : Cursor :=
  Cursor.validate_cursor ⟨new_x, c.y, new_x⟩ buffer

/-- `Cursor::move_y`: absolute row; sticky column untouched, then clamps. -/
def Cursor.move_y (c : Cursor) (new_y : Nat) (buffer : Buffer) : Cursor :=
  Cursor.validate_cursor ⟨c.x, new_y, c.max_column⟩ buffer

/-! ### Display (src/util/display.rs): terminal size, scroll offset, cursor.
Pairs are `(horizontal, vertical)` exactly as the `(u16, u16)` fields. -/

structure Display where
  size : Nat × Nat
  offset : Nat × Nat
  cursor : Cursor
deriving DecidableEq

/-- `Display::validate_offset`, statement by statement (sequential `if`s, each
reading the values left by the previous one).  The first branch is transcribed
as written in the source: it assigns `offset.1` from
`cursor.position.1 - size.0 + 1` (wrapping u16 subtraction). -/
def Display.validate_offset (d : Display) : Display :=
  let cx := d.cursor.x
  let cy := d.cursor.y
  let ox := d.offset.1
  let oy := d.offset.2
  let sx := d.size.1
  let sy := d.size.2
  let oy1 := if wAdd ox sx ≤ cx then wAdd (wSub cy sx) 1 else oy
  let oy2 := if wAdd oy1 sy ≤ cy then wAdd (wSub cy sy) 1 else oy1
  let ox1 := if cx < ox then cx else ox
  let oy3 := if cy < oy2 then cy else oy2
  { d with offset := (ox1, oy3) }

/-- `Display::cursor_move_by`: move the cursor, then revalidate the offset. -/
def Display.cursor_move_by (d : Display) (delta : Int × Int) (buffer : Buffer) : Display :=
  Display.validate_offset { d with cursor := d.cursor.move_by delta buffer }

/-- `Display::cursor_move_x`. -/
def Display.cursor_move_x (d : Display) (new_x : Nat) (buffer : Buffer) : Display :=
  Display.validate_offset { d with cursor := d.cursor.move_x new_x buffer }

/-- `Display::cursor_move_y`. -/
def Display.cursor_move_y (d : Display) (new_y : Nat) (buffer : Buffer) : Display :=
  Display.validate_offset { d with cursor := d.cursor.move_y new_y buffer }

/-- `trimmed_line` in `Display::render`: the text portion emitted for one
visible buffer row.  The guard is transcribed as written in the source:
`line.len() > self.cursor.position.0` (the cursor's column), with the slice
`line[offset.0 .. (offset.0 + max_columns).min(line.len())]`. -/
def trimmed_line (line : Line) (cursorX offsetX maxColumns : Nat) : Line :=
  if cursorX < line.length then
    (line.take (min (offsetX + maxColumns) line.length)).drop offsetX
  else []

/-- The per-row text output of `Display::render`: `max_lines` is the terminal
height minus one row in COMMAND mode minus the newline count of any error
banner; visible rows get their `trimmed_line`, remaining rows the `~` filler. -/
def Display.render_rows (d : Display) (buffer : Buffer) (mode : Mode)
    (err : Option (List Char)) : List Line :=
  let maxLines := d.size.2 - (if mode = Mode.COMMAND then 1 else 0) -
    (match err with
     | some e => (e.filter (fun c => c = '\n')).length
     | none => 0)
  let maxColumns := d.size.1
  let textRows := ((buffer.drop d.offset.2).take maxLines).map
    (fun line => trimmed_line line d.cursor.x d.offset.1 maxColumns)
  textRows ++ List.replicate (maxLines - textRows.length) ['~']

/-! ### Editor state (src/editor/editor.rs `struct Editor`, minus the keymap,
which is held next to it in `EditorSt` so that actions — which never touch the
keymap — can be plain functions on `Core`).  `last_key_time` is abstracted:
each dispatch receives the already-evaluated comparison
`elapsed > 1000ms` as a `timedOut` flag. -/

structure Core where
  buffer : Buffer
  error : Option (List Char)
  command : List Char
  filename : Option (List Char)
  dirty : Bool
  stop : Bool
  mode : Mode
  display : Display

/-- The file system an action can read: filename ↦ content of an existing,
readable file.  Writes do not feed back into any state the editor reads. -/
abbrev World := List Char → Option (List Char)

/-- A bound action (`FnMut(&mut Editor) -> Result<(), Report>`): on failure it
reports the message together with the state at the point of the error, since
Rust keeps mutations made before an early `return Err`. -/
abbrev Action := Core → World → Except (List Char × Core) Core

/-- `Editor::new` (buffer = one empty line, cursor at the origin); the terminal
size is whatever `terminal::size()` reports at startup. -/
def Core.new (size : Nat × Nat) : Core :=
  { buffer := [[]], error := none, command := [], filename := none,
    dirty := true, stop := false, mode := Mode.NORMAL,
    display := { size := size, offset := (0, 0), cursor := ⟨0, 0, 0⟩ } }

/-- `Editor::load_file`: remember the filename; if the file does not exist,
done; otherwise replace the whole buffer with the file's lines.  The cursor is
not touched. -/
def Core.load_file (c : Core) (f : List Char) (w : World) : Core :=
  let c1 := { c with filename := some f }
  match w f with
  | none => c1
  | some content => { c1 with buffer := rustLines content }

/-- `Editor::save_file`: the written bytes are `buffer.join("\n")` and the
filename is remembered; only the latter changes editor state. -/
def Core.save_file (c : Core) (f : List Char) : Core × List Char :=
  ({ c with filename := some f }, joinNL c.buffer)

/-! ### Keymap (src/util/keymap.rs) -/

inductive KeyNode where
  | mk (children : List (KeyEvent × KeyNode))
       (action : Option (Core → World → Except (List Char × Core) Core))

def KeyNode.children : KeyNode → List (KeyEvent × KeyNode)
  | KeyNode.mk cs _ => cs

def KeyNode.action : KeyNode → Option Action
  | KeyNode.mk _ a => a

def KeyNode.empty : KeyNode := KeyNode.mk [] none

/-- `KeyNode::is_leaf`: no children. -/
def KeyNode.is_leaf (n : KeyNode) : Bool := n.children.isEmpty

/-- `KeyNode::insert`: walk/extend the trie along the sequence and store the
action at its end (silently overwriting any previous action there). -/
def KeyNode.insert : List KeyEvent → KeyNode → Action → KeyNode
  | [], n, a => KeyNode.mk n.children (some a)
  | k :: rest, n, a =>
    let child := KeyNode.insert rest ((alookup n.children k).getD KeyNode.empty) a
    KeyNode.mk (aset n.children k child) n.action

structure Keymap where
  root : List (Mode × KeyNode)
  current : Option KeyNode
  numericCount : Option Nat

def Keymap.new : Keymap := ⟨[], none, none⟩

/-- `Keymap::add_keybind`: insert the sequence into each listed mode's trie
(creating the mode root on demand, as `entry(..).or_insert_with`). -/
def Keymap.add_keybind (km : Keymap) (modes : List Mode) (seq : List KeyEvent)
    (a : Action) : Keymap :=
  { km with root :=
      (modes.foldl
        (fun r m => aset r m (KeyNode.insert seq ((alookup r m).getD KeyNode.empty) a))
        km.root) }

/-- The node `traverse` starts from: the pending pointer if a traversal is in
progress, else the mode's root (`root.get(mode).unwrap()`, totalized to the
empty node). -/
def Keymap.currentNode (km : Keymap) (mode : Mode) : KeyNode :=
  match km.current with
  | some n => n
  | none => (alookup km.root mode).getD KeyNode.empty

/-- `Keymap::traverse`: on a child match advance the pointer and return no
event; on no match, consume a digit character (`event_to_digit`) into the
numeric prefix without moving the pointer, and otherwise hand the event back
unresolved, leaving the whole keymap state untouched. -/
def Keymap.traverse (km : Keymap) (mode : Mode) (ev : KeyEvent) :
    Keymap × Option KeyEvent :=
  match alookup (km.currentNode mode).children ev with
  | some n => ({ km with current := some n }, none)
  | none =>
    match eventToDigit ev with
    | some d => ({ km with numericCount := some d }, none)
    | none => (km, some ev)

/-- `Keymap::is_leaf` (false when no traversal is in progress). -/
def Keymap.is_leaf (km : Keymap) : Bool :=
  match km.current with
  | some n => n.is_leaf
  | none => false

/-- `Keymap::get_action`. -/
def Keymap.get_action (km : Keymap) : Option Action :=
  match km.current with
  | some n => n.action
  | none => none

/-- `Keymap::clear`: reset the traversal pointer to the root. -/
def Keymap.clear (km : Keymap) : Keymap := { km with current := none }

/-- `Keymap::is_empty`: no traversal in progress. -/
def Keymap.is_empty (km : Keymap) : Bool := km.current.isNone

/-- `Keymap::repeats`: `numeric_prefix.take().unwrap_or(1)` — returns the
count and the keymap with the prefix consumed. -/
def Keymap.repeats (km : Keymap) : Nat × Keymap :=
  (km.numericCount.getD 1, { km with numericCount := none })

/-! ### Dispatch (src/editor/editor.rs) -/

structure EditorSt where
  core : Core
  km : Keymap

/-- Run one action `n` times sequentially (`for _ in 0..repeats`), stopping at
the first error. -/
def runActionN (w : World) (a : Action) : Nat → Core → Except (List Char × Core) Core
  | 0, c => Except.ok c
  | n + 1, c =>
    match a c w with
    | Except.ok c2 => runActionN w a n c2
    | Except.error e => Except.error e

/-- `Editor::execute_keymap_action`: if an action is bound at the pointer, run
it `repeats()` times (consuming the numeric prefix first); afterwards clear the
pointer.  An error propagates before `clear()` is reached, so the pointer
survives, but the prefix is already consumed. -/
def EditorSt.execute_keymap_action (s : EditorSt) (w : World) :
    Except (List Char × EditorSt) EditorSt :=
  match s.km.get_action with
  | some a =>
    let r := s.km.repeats
    match runActionN w a r.1 s.core with
    | Except.ok c => Except.ok ⟨c, r.2.clear⟩
    | Except.error (msg, c) => Except.error (msg, ⟨c, r.2⟩)
  | none => Except.ok ⟨s.core, s.km.clear⟩

/-- `Editor::handle_unresolved_key_event`: the mode-specific fallback for keys
that survived resolution. -/
def handle_unresolved_key_event (c : Core) (ev : KeyEvent) : Core :=
  match c.mode with
  | Mode.COMMAND =>
    match ev.code with
    | KeyCode.char x => { c with command := c.command ++ [x] }
    | KeyCode.backspace => { c with command := c.command.dropLast }
    | _ => c
  | Mode.INSERT =>
    let x := c.display.cursor.x
    let y := c.display.cursor.y
    match ev.code with
    | KeyCode.char k =>
      let c1 := { c with buffer := updateLine c.buffer y (insertAt x k) }
      { c1 with display := c1.display.cursor_move_by (1, 0) c1.buffer }
    | KeyCode.enter =>
      let line := c.buffer.getD y []
      let c1 := { c with
        buffer := insertAt (y + 1) (line.drop x) (c.buffer.set y (line.take x)) }
      { c1 with display := c1.display.cursor_move_by (-(toI16 x), 1) c1.buffer }
    | KeyCode.delete =>
      if x < (c.buffer.getD y []).length % 65536 then
        { c with buffer := updateLine c.buffer y (fun l => eraseAt l x) }
      else
        let y1 := wAdd y 1
        if y1 < c.buffer.length % 65536 then
          let nextLine := c.buffer.getD y1 []
          { c with buffer := updateLine (eraseAt c.buffer y1) y (fun l => l ++ nextLine) }
        else c
    | KeyCode.backspace =>
      if 0 < x then
        let c1 := { c with buffer := updateLine c.buffer y (fun l => eraseAt l (x - 1)) }
        { c1 with display := c1.display.cursor_move_by (-1, 0) c1.buffer }
      else if 0 < y then
        let prevLen := (c.buffer.getD (y - 1) []).length % 65536
        let currentLine := c.buffer.getD y []
        let c1 := { c with
          buffer := updateLine (eraseAt c.buffer y) (y - 1) (fun l => l ++ currentLine) }
        { c1 with display := c1.display.cursor_move_by (toI16 prevLen, -1) c1.buffer }
      else c
    | _ => c
  | _ => c

/-- The tail of `Editor::handle_key_event` after the (possibly retried)
traversal: fire a leaf immediately, then route a surviving unresolved event
without ALT/CONTROL to the fallback handler, then mark dirty. -/
def finishKeyEvent (s : EditorSt) (unresolved : Option KeyEvent) (w : World) :
    Except (List Char × EditorSt) EditorSt :=
  match (if s.km.is_leaf then s.execute_keymap_action w else Except.ok s) with
  | Except.error e => Except.error e
  | Except.ok s2 =>
    let core2 :=
      match unresolved with
      | some u =>
        if u.modifiers.alt || u.modifiers.ctrl then s2.core
        else handle_unresolved_key_event s2.core u
      | none => s2.core
    Except.ok ⟨{ core2 with dirty := true }, s2.km⟩

/-- `Editor::handle_key_event`.  `timedOut` stands for
`last_key_time.elapsed() > 1000ms`; `ev?` is the (at most one) drained event
(`try_recv`).  Steps: forced resolution on timeout while a sequence is
pending; traverse; on an unresolved result force-resolve and retry the same
event; fire a leaf; route the surviving unresolved event to the fallback. -/
def EditorSt.handle_key_event (s : EditorSt) (w : World) (timedOut : Bool)
    (ev? : Option KeyEvent) : Except (List Char × EditorSt) EditorSt :=
  match (if timedOut && !s.km.is_empty then
           match s.execute_keymap_action w with
           | Except.ok s1 => Except.ok ⟨{ s1.core with dirty := true }, s1.km⟩
           | Except.error e => Except.error e
         else Except.ok s) with
  | Except.error e => Except.error e
  | Except.ok s1 =>
    match ev? with
    | none => Except.ok s1
    | some ev =>
      let t1 := s1.km.traverse s1.core.mode ev
      match t1.2 with
      | none => finishKeyEvent ⟨s1.core, t1.1⟩ none w
      | some _ =>
        match EditorSt.execute_keymap_action ⟨s1.core, t1.1⟩ w with
        | Except.error e => Except.error e
        | Except.ok s2 =>
          let t2 := s2.km.traverse s2.core.mode ev
          finishKeyEvent ⟨s2.core, t2.1⟩ t2.2 w

/-- One iteration of the `run` loop around `handle_key_event`: an `Err` is
caught, surfaced as the error banner, and the loop continues. -/
def dispatch (w : World) (timedOut : Bool) (ev? : Option KeyEvent)
    (s : EditorSt) : EditorSt :=
  match s.handle_key_event w timedOut ev? with
  | Except.ok s2 => s2
  | Except.error (msg, s2) => ⟨{ s2.core with error := some msg, dirty := true }, s2.km⟩

/-! ### The default keybindings (src/macros.rs `default_keybinds`).
Motion actions go through `e.display.cursor` directly (`Cursor::move_by` /
`move_x` / `move_y`), NOT through `Display::cursor_move_by`, so they do not
revalidate the viewport offset. -/

def coreCursorMoveBy (c : Core) (delta : Int × Int) : Core :=
  { c with display := { c.display with cursor := c.display.cursor.move_by delta c.buffer } }

def coreCursorMoveX (c : Core) (new_x : Nat) : Core :=
  { c with display := { c.display with cursor := c.display.cursor.move_x new_x c.buffer } }

def coreCursorMoveY (c : Core) (new_y : Nat) : Core :=
  { c with display := { c.display with cursor := c.display.cursor.move_y new_y c.buffer } }

/-- The target column computed by the NORMAL-mode `$` binding:
`e.buffer[y].len() as u16 - 1` (wrapping u16 subtraction). -/
def dollarTargetCol (len : Nat) : Nat := wSub (len % 65536) 1

/-- The `$` computation underflows: the `u16` difference `len as u16 - 1` is
negative before wrapping. -/
def dollarUnderflows (len : Nat) : Prop := ((len % 65536 : Nat) : Int) - 1 < 0

def noFilenameMsg : List Char := "No filename specified".toList

/-- The COMMAND-mode `<CR>` action: parse and run the typed command
(`q` / `e file` / `w [file]` / `wq [file]`).  `take(&mut e.command)` empties
the command string before parsing; an error returns early, so neither the
`mode = NORMAL` reset nor anything after it runs. -/
def commandEnterAction : Action := fun c w =>
  if c.command.isEmpty then Except.ok { c with mode := Mode.NORMAL }
  else
    let args := splitWs c.command
    let c0 := { c with command := [] }
    if args[0]? = some ['q'] then
      Except.ok { c0 with stop := true, mode := Mode.NORMAL }
    else if args[0]? = some ['e'] then
      match args[1]? with
      | some f => Except.ok { c0.load_file f w with mode := Mode.NORMAL }
      | none => Except.error (noFilenameMsg, c0)
    else if args[0]? = some ['w'] then
      match (args[1]?).orElse (fun _ => c0.filename) with
      | some f => Except.ok { (c0.save_file f).1 with mode := Mode.NORMAL }
      | none => Except.error (noFilenameMsg, c0)
    else if args[0]? = some ['w', 'q'] then
      match (args[1]?).orElse (fun _ => c0.filename) with
      | some f => Except.ok { (c0.save_file f).1 with stop := true, mode := Mode.NORMAL }
      | none => Except.error (noFilenameMsg, c0)
    else Except.ok { c0 with mode := Mode.NORMAL }

def default_keybinds (km0 : Keymap) : Keymap :=
  let kmA := km0.add_keybind [Mode.NORMAL] [ch 'k']
    (fun c _ => Except.ok (coreCursorMoveBy c (0, -1)))
  let kmB := kmA.add_keybind [Mode.NORMAL] [ch 'j']
    (fun c _ => Except.ok (coreCursorMoveBy c (0, 1)))
  let kmC := kmB.add_keybind [Mode.NORMAL] [ch 'h']
    (fun c _ => Except.ok (coreCursorMoveBy c (-1, 0)))
  let kmD := kmC.add_keybind [Mode.NORMAL] [ch 'l']
    (fun c _ => Except.ok (coreCursorMoveBy c (1, 0)))
  let kmE := kmD.add_keybind [Mode.NORMAL] [ch 'i']
    (fun c _ => Except.ok { c with mode := Mode.INSERT })
  let kmF := kmE.add_keybind [Mode.NORMAL] [ch ':']
    (fun c _ => Except.ok { c with mode := Mode.COMMAND })
  let kmG := kmF.add_keybind [Mode.INSERT, Mode.COMMAND] [keyEsc]
    (fun c _ => Except.ok { c with mode := Mode.NORMAL, command := [] })
  let kmH := kmG.add_keybind [Mode.NORMAL] [keyEnter]
    (fun c _ => Except.ok (if c.error.isSome then { c with error := none } else c))
  let kmI := kmH.add_keybind [Mode.NORMAL] [ch '$']
    (fun c _ =>
      Except.ok (coreCursorMoveX c
        (dollarTargetCol (c.buffer.getD c.display.cursor.y []).length)))
  let kmJ := kmI.add_keybind [Mode.NORMAL] [ch '_']
    (fun c _ =>
      match (c.buffer.getD c.display.cursor.y []).findIdx? (fun k => ¬ k.isWhitespace) with
      | some i => Except.ok (coreCursorMoveX c (i % 65536))
      | none => Except.ok c)
  let kmK := kmJ.add_keybind [Mode.NORMAL] [ch 'g', ch 'g']
    (fun c _ => Except.ok (coreCursorMoveY c 0))
  let kmL := kmK.add_keybind [Mode.NORMAL] [ch 'G']
    (fun c _ => Except.ok (coreCursorMoveY c (c.buffer.length % 65536)))
  let kmM := kmL.add_keybind [Mode.NORMAL] [ch 'o']
    (fun c _ =>
      let c1 := { c with buffer := insertAt (c.display.cursor.y + 1) [] c.buffer }
      Except.ok { coreCursorMoveBy c1 (0, 1) with mode := Mode.INSERT })
  let kmN := kmM.add_keybind [Mode.NORMAL] [ch 'O']
    (fun c _ =>
      let c1 := { c with buffer := insertAt c.display.cursor.y [] c.buffer }
      Except.ok { coreCursorMoveBy c1 (0, 0) with mode := Mode.INSERT })
  kmN.add_keybind [Mode.COMMAND] [keyEnter] commandEnterAction

/-- The editor as it enters the interactive loop without a `-f` flag:
`Editor::new` with the default keybindings installed at startup. -/
def initEditor (size : Nat × Nat) : EditorSt :=
  ⟨Core.new size, default_keybinds Keymap.new⟩

/-- Editor states reachable from startup: any interleaving of dispatch-loop
iterations (each with an arbitrary file system, timeout outcome and at most
one drained key event) and renders (which clear the dirty flag). -/
inductive Reachable : EditorSt → Prop where
  | init : ∀ size, Reachable (initEditor size)
  | step : ∀ (w : World) (timedOut : Bool) (ev? : Option KeyEvent) (s : EditorSt),
      Reachable s → Reachable (dispatch w timedOut ev? s)
  | render : ∀ s : EditorSt, Reachable s → Reachable ⟨{ s.core with dirty := false }, s.km⟩

/-- Does the cursor satisfy the claimed bounds in this state? -/
def cursorInBounds (s : EditorSt) : Prop :=
  s.core.display.cursor.y < s.core.buffer.length ∧
  s.core.display.cursor.x ≤ (s.core.buffer.getD s.core.display.cursor.y []).length

/-! ### Concrete fixtures for the claims -/

def noFile : World := fun _ => none

def sendKeys (w : World) (evs : List KeyEvent) (s : EditorSt) : EditorSt :=
  evs.foldl (fun s2 e => dispatch w false (some e) s2) s

/-- A file system holding one file `f`, empty. -/
def c1World : World := fun f => if f = ['f'] then some [] else none

/-- Startup, then `:`, `e`, space, `f`, Enter — load the existing empty file. -/
def c1Trace : EditorSt :=
  dispatch c1World false (some keyEnter)
    (dispatch c1World false (some (ch 'f'))
      (dispatch c1World false (some (ch ' '))
        (dispatch c1World false (some (ch 'e'))
          (dispatch c1World false (some (ch ':')) (initEditor (80, 24))))))

def markerA : List Char := ['A']

/-- Only the sequence `gg` bound (action A sets a marker), in INSERT mode so
that reprocessing from the root is observable through the fallback insert. -/
def ggKeymapInsert : Keymap :=
  Keymap.new.add_keybind [Mode.INSERT] [ch 'g', ch 'g']
    (fun c _ => Except.ok { c with error := some markerA })

def c3Start : EditorSt := ⟨{ Core.new (80, 24) with mode := Mode.INSERT }, ggKeymapInsert⟩

def c3AfterG : EditorSt := dispatch noFile false (some (ch 'g')) c3Start

def c3AfterGX : EditorSt := dispatch noFile false (some (ch 'x')) c3AfterG

/-- Only the sequence `gg` bound, in NORMAL mode. -/
def ggKeymapNormal : Keymap :=
  Keymap.new.add_keybind [Mode.NORMAL] [ch 'g', ch 'g']
    (fun c _ => Except.ok { c with error := some markerA })

/-- The keymap after the first `g`: the traversal pointer is mid-sequence. -/
def c4Pending : Keymap := (ggKeymapNormal.traverse Mode.NORMAL (ch 'g')).1

def buffer10 : Buffer := List.replicate 10 ['a']

def st10 : EditorSt :=
  ⟨{ Core.new (80, 24) with buffer := buffer10 }, default_keybinds Keymap.new⟩

def st10at5 : EditorSt :=
  ⟨{ Core.new (80, 24) with
      buffer := buffer10,
      display := { size := (80, 24), offset := (0, 0), cursor := ⟨0, 5, 0⟩ } },
   default_keybinds Keymap.new⟩

/-- A 10-line buffer in front of a 4-row-high terminal. -/
def st10short : EditorSt :=
  ⟨{ Core.new (80, 4) with buffer := buffer10 }, default_keybinds Keymap.new⟩

def stickyBuf : Buffer := ["abcdef".toList, "xy".toList, "abcdef".toList]

def downMove (c : Cursor) : Cursor := c.move_by (0, 1) stickyBuf

/-- Offset (0, 90), cursor on column 80 of row 100: one column right of the
80 by 24 window, vertically inside it. -/
def c7Disp : Display := ⟨(80, 24), (0, 90), ⟨80, 100, 80⟩⟩

def c9Disp : Display := ⟨(80, 4), (0, 0), ⟨5, 0, 5⟩⟩

def c9Buf : Buffer := ["abcdef".toList, "xy".toList]

/-- A file system holding one file `f` with content `ab`, newline, `cd`. -/
def c8World : World := fun x => if x = ['f'] then some ("ab\ncd".toList) else none

/-- A file system holding one file `f` with content `a`, CR, LF, `b`. -/
def c8WorldCRLF : World := fun x => if x = ['f'] then some ("a\r\nb".toList) else none

/-! ## Helper lemmas -/

theorem length_updateLine (b : Buffer) (i : Nat) (f : Line → Line) :
    (updateLine b i f).length = b.length := by
  simp [updateLine]

theorem length_insertAt {α : Type} (a : α) : ∀ (n : Nat) (l : List α),
    (insertAt n a l).length = if n ≤ l.length then l.length + 1 else l.length
  | 0, l => by simp [insertAt]
  | n + 1, [] => by
    simp only [insertAt, List.length_nil]
    split <;> omega
  | n + 1, x :: xs => by
    have ih := length_insertAt a n xs
    simp only [insertAt, List.length_cons, ih]
    split_ifs <;> omega

theorem length_eraseAt {α : Type} : ∀ (l : List α) (n : Nat),
    (eraseAt l n).length = if n < l.length then l.length - 1 else l.length
  | [], n => by simp [eraseAt]
  | x :: xs, 0 => by simp [eraseAt]
  | x :: xs, n + 1 => by
    have ih := length_eraseAt xs n
    simp only [eraseAt, List.length_cons, ih]
    split_ifs <;> omega

theorem validate_cursor_y_lt (c : Cursor) (buf : Buffer) (h : 1 ≤ buf.length) :
    (c.validate_cursor buf).y < buf.length := by
  show (if buf.length % 65536 ≤ c.y then (buf.length - 1) % 65536 else c.y) < buf.length
  split <;> omega

theorem display_cursor_move_by_y_lt (d : Display) (delta : Int × Int) (buf : Buffer)
    (h : 1 ≤ buf.length) : (d.cursor_move_by delta buf).cursor.y < buf.length := by
  show (Cursor.validate_cursor _ buf).y < buf.length
  exact validate_cursor_y_lt _ _ h

theorem inv_after_move (c1 : Core) (delta : Int × Int) (h : 1 ≤ c1.buffer.length) :
    1 ≤ ({ c1 with display := c1.display.cursor_move_by delta c1.buffer }).buffer.length ∧
    ({ c1 with display := c1.display.cursor_move_by delta c1.buffer }).display.cursor.y <
      ({ c1 with display := c1.display.cursor_move_by delta c1.buffer }).buffer.length :=
  ⟨h, display_cursor_move_by_y_lt _ _ _ h⟩

/-- Every single fallback edit keeps the buffer non-empty and the cursor row in
range, provided it starts that way. -/
theorem handle_unresolved_inv (c : Core) (ev : KeyEvent)
    (h1 : 1 ≤ c.buffer.length) (h2 : c.display.cursor.y < c.buffer.length) :
    1 ≤ (handle_unresolved_key_event c ev).buffer.length ∧
    (handle_unresolved_key_event c ev).display.cursor.y <
      (handle_unresolved_key_event c ev).buffer.length := by
  cases hm : c.mode
  case NORMAL =>
    simp only [handle_unresolved_key_event, hm]
    exact ⟨h1, h2⟩
  case VISUAL =>
    simp only [handle_unresolved_key_event, hm]
    exact ⟨h1, h2⟩
  case COMMAND =>
    cases hcode : ev.code <;> simp only [handle_unresolved_key_event, hm, hcode] <;>
      exact ⟨h1, h2⟩
  case INSERT =>
    cases hcode : ev.code
    case char k =>
      simp only [handle_unresolved_key_event, hm, hcode]
      exact inv_after_move
        { c with buffer := updateLine c.buffer c.display.cursor.y (insertAt c.display.cursor.x k) }
        (1, 0) (by simpa [length_updateLine] using h1)
    case enter =>
      simp only [handle_unresolved_key_event, hm, hcode]
      refine inv_after_move
        { c with buffer :=
            (insertAt (c.display.cursor.y + 1)
              ((c.buffer.getD c.display.cursor.y []).drop c.display.cursor.x)
              (c.buffer.set c.display.cursor.y
                ((c.buffer.getD c.display.cursor.y []).take c.display.cursor.x))) }
        (-(toI16 c.display.cursor.x), 1) ?_
      dsimp only
      rw [length_insertAt, List.length_set]
      split_ifs <;> omega
    case delete =>
      simp only [handle_unresolved_key_event, hm, hcode]
      split_ifs with hx hy
      · exact ⟨by simpa [length_updateLine] using h1,
          by simpa [length_updateLine] using h2⟩
      · refine ⟨?_, ?_⟩
        all_goals
          dsimp only
          rw [length_updateLine, length_eraseAt]
          simp only [wAdd] at hy ⊢
          split_ifs <;> omega
      · exact ⟨h1, h2⟩
    case backspace =>
      simp only [handle_unresolved_key_event, hm, hcode]
      split_ifs with hx hy
      · exact inv_after_move
          { c with buffer :=
              (updateLine c.buffer c.display.cursor.y
                (fun l => eraseAt l (c.display.cursor.x - 1))) }
          (-1, 0) (by simpa [length_updateLine] using h1)
      · refine inv_after_move
          { c with buffer :=
              (updateLine (eraseAt c.buffer c.display.cursor.y)
                (c.display.cursor.y - 1)
                (fun l => l ++ c.buffer.getD c.display.cursor.y [])) }
          (toI16 ((c.buffer.getD (c.display.cursor.y - 1) []).length % 65536), -1) ?_
        dsimp only
        rw [length_updateLine, length_eraseAt]
        split_ifs
        all_goals omega
      · exact ⟨h1, h2⟩
    all_goals (simp only [handle_unresolved_key_event, hm, hcode]; exact ⟨h1, h2⟩)

/-- The fallback invariant, folded over any event sequence. -/
theorem foldl_unresolved_inv : ∀ (evs : List KeyEvent) (c : Core),
    1 ≤ c.buffer.length ∧ c.display.cursor.y < c.buffer.length →
    1 ≤ (evs.foldl handle_unresolved_key_event c).buffer.length ∧
    (evs.foldl handle_unresolved_key_event c).display.cursor.y <
      (evs.foldl handle_unresolved_key_event c).buffer.length
  | [], c, h => by simpa using h
  | ev :: evs, c, h => by
    have step := handle_unresolved_inv c ev h.1 h.2
    simpa [List.foldl_cons] using foldl_unresolved_inv evs (handle_unresolved_key_event c ev) step

theorem noCRLF_tail : ∀ (a : Char) (l : List Char), noCRLF (a :: l) = true → noCRLF l = true
  | _, [], _ => rfl
  | _, _ :: _, h => by
    simp only [noCRLF] at h
    split at h
    · exact absurd h (by simp)
    · exact h

theorem getLast_cons_of_ne_nil {α : Type} (c : α) (cs : List α) (h : cs ≠ []) :
    (c :: cs).getLast? = cs.getLast? := by
  cases cs with
  | nil => exact absurd rfl h
  | cons b rest => simp [List.getLast?_cons_cons]

theorem rustLinesAux_ne_nil : ∀ (cs : List Char) (acc : Line), rustLinesAux cs acc ≠ []
  | [], _ => by simp [rustLinesAux]
  | c :: cs, acc => by
    simp only [rustLinesAux]
    split
    · simp
    · exact rustLinesAux_ne_nil cs (acc ++ [c])

theorem joinNL_cons (l : Line) (ls : List Line) (h : ls ≠ []) :
    joinNL (l :: ls) = l ++ '\n' :: joinNL ls := by
  cases ls with
  | nil => exact absurd rfl h
  | cons a as => rfl

/-- Splitting as `BufRead::lines` does and re-joining with a newline is the
identity, provided the content has no trailing newline and no CR-LF pair; the
accumulator holds the already-consumed chunk of the current line. -/
theorem joinNL_rustLinesAux : ∀ (cs : List Char) (acc : Line),
    noCRLF cs = true → cs.getLast? ≠ some '\n' →
    (acc.getLast? = some '\r' → cs.head? ≠ some '\n') →
    joinNL (rustLinesAux cs acc) = acc ++ cs
  | [], acc, _, _, _ => by simp [rustLinesAux, joinNL]
  | c :: cs, acc, h1, h2, h3 => by
    by_cases hc : c = '\n'
    · subst hc
      have hcs : cs ≠ [] := by
        intro hnil
        subst hnil
        simp at h2
      have hacc : stripCR acc = acc := by
        unfold stripCR
        rw [if_neg]
        intro hr
        exact (h3 hr) rfl
      have hcsEmpty : cs.isEmpty = false := by
        cases cs with
        | nil => exact absurd rfl hcs
        | cons _ _ => rfl
      have step : rustLinesAux ('\n' :: cs) acc = stripCR acc :: rustLinesAux cs [] := by
        simp [rustLinesAux, hcsEmpty]
      have ih := joinNL_rustLinesAux cs [] (noCRLF_tail _ _ h1)
        (by rwa [getLast_cons_of_ne_nil _ _ hcs] at h2) (by simp)
      rw [step, hacc, joinNL_cons _ _ (rustLinesAux_ne_nil cs []), ih]
      simp
    · have step : rustLinesAux (c :: cs) acc = rustLinesAux cs (acc ++ [c]) := by
        simp [rustLinesAux, hc]
      have hl : cs.getLast? ≠ some '\n' := by
        cases cs with
        | nil => simp
        | cons b rest =>
          rwa [getLast_cons_of_ne_nil c (b :: rest) (by simp)] at h2
      have hb : (acc ++ [c]).getLast? = some '\r' → cs.head? ≠ some '\n' := by
        intro hr hd
        have hcr : c = '\r' := by simpa using hr
        cases cs with
        | nil => simp at hd
        | cons b rest =>
          have hbn : b = '\n' := by simpa using hd
          subst hcr
          subst hbn
          simp [noCRLF] at h1
      rw [step, joinNL_rustLinesAux cs (acc ++ [c]) (noCRLF_tail _ _ h1) hl hb]
      simp

/-- Load-split followed by newline-join is the identity on contents with no
trailing newline and no CR-LF pair. -/
theorem joinNL_rustLines (cs : List Char) (h1 : noCRLF cs = true)
    (h2 : cs.getLast? ≠ some '\n') : joinNL (rustLines cs) = cs := by
  cases cs with
  | nil => rfl
  | cons c rest =>
    have := joinNL_rustLinesAux (c :: rest) [] h1 h2 (by simp)
    simpa [rustLines] using this

/-! ## Claim theorems -/

/-- C1: the claimed invariant `0 ≤ row < buffer.len()` and
`0 ≤ column ≤ line(row).len()` does NOT hold for every reachable state:
starting the editor and loading an existing empty file through the COMMAND-mode
`e` command (`:`, `e`, space, `f`, Enter against a file system where file `f`
exists with empty content) leaves the buffer empty, so `row < buffer.len()`
fails — `load_file` replaces the buffer without revalidating the cursor or
guaranteeing a line. -/
theorem c1_load_empty_file_breaks_cursor_invariant :
    Reachable c1Trace ∧ ¬ cursorInBounds c1Trace := by
  constructor
  · exact Reachable.step c1World false (some keyEnter) _
      (Reachable.step c1World false (some (ch 'f')) _
        (Reachable.step c1World false (some (ch ' ')) _
          (Reachable.step c1World false (some (ch 'e')) _
            (Reachable.step c1World false (some (ch ':')) _
              (Reachable.init (80, 24))))))
  · unfold cursorInBounds
    decide

/-- C2: every sequence of fallback edits (INSERT-mode character insert, Enter
line split, Delete end-of-line join, Backspace start-of-line join — and,
subsuming the claim, any fallback event in any mode) applied to a state whose
buffer has at least one line and whose cursor row is inside the buffer keeps
the buffer non-empty after every operation (instantiate `evs` at each prefix
of the edit sequence). -/
theorem c2_insert_fallback_preserves_nonempty_buffer (c : Core) (evs : List KeyEvent)
    (h1 : 1 ≤ c.buffer.length) (h2 : c.display.cursor.y < c.buffer.length) :
    1 ≤ (evs.foldl handle_unresolved_key_event c).buffer.length :=
  (foldl_unresolved_inv evs c ⟨h1, h2⟩).1

/-- C2 witness: a fresh INSERT-mode editor surviving an insert, a line split,
a start-of-line join and an end-of-line Delete. -/
theorem c2_insert_fallback_preserves_nonempty_buffer_witness :
    1 ≤ (([ch 'a', keyEnter, ⟨KeyCode.backspace, Modifiers.plain⟩,
           ⟨KeyCode.delete, Modifiers.plain⟩]).foldl handle_unresolved_key_event
          { Core.new (80, 24) with mode := Mode.INSERT }).buffer.length :=
  c2_insert_fallback_preserves_nonempty_buffer _ _ (by decide) (by decide)

/-- C3: with only `gg` bound (to an action that would set the error marker)
and no binding for `g` alone, sending `g` leaves a pending sequence; sending
an unbound `x` within the timeout discards the pending `g` with no action
fired (the marker stays unset), resets the pointer to the root, and `x` is
reprocessed from the root as unresolved — observably, in INSERT mode, `x` is
inserted into the buffer by the fallback handler. -/
theorem c3_dead_end_force_resolution :
    c3AfterG.km.current.isSome = true ∧
    c3AfterGX.core.error = none ∧
    c3AfterGX.core.buffer = [['x']] ∧
    c3AfterGX.core.display.cursor.x = 1 ∧
    c3AfterGX.km.current = none :=
  ⟨rfl, rfl, rfl, rfl, rfl⟩

/-- C4 counterexample: the claim says a digit is consumed only at the root and
only without modifiers, otherwise returned as `Unresolved`.  In the code, with
`gg` bound and the pointer mid-sequence after `g`, an unmatched `1` is still
consumed into the repeat prefix (`traverse` returns no event, not the event),
and a CONTROL-modified `5` at the root is likewise consumed. -/
theorem c4_digit_consumed_mid_sequence_counterexample :
    c4Pending.current.isSome = true ∧
    (c4Pending.traverse Mode.NORMAL (ch '1')).2 = none ∧
    ¬ ((c4Pending.traverse Mode.NORMAL (ch '1')).2 = some (ch '1')) ∧
    (c4Pending.traverse Mode.NORMAL (ch '1')).1.numericCount = some 1 ∧
    (ggKeymapNormal.traverse Mode.NORMAL ⟨KeyCode.char '5', ⟨true, false, false⟩⟩).2 = none ∧
    (ggKeymapNormal.traverse Mode.NORMAL
      ⟨KeyCode.char '5', ⟨true, false, false⟩⟩).1.numericCount = some 5 :=
  ⟨rfl, rfl, by decide, rfl, rfl, rfl⟩

/-- C4 (amended): when `traverse` finds no child matching the incoming event,
the event is consumed as a repeat-prefix digit whenever it is a digit
character — regardless of modifiers and regardless of whether the pointer is
at the root or mid-sequence — and the pointer does not move; in every other
no-match case the event is returned as `Unresolved` with the whole keymap
state unchanged. -/
theorem c4_no_match_digit_behavior (km : Keymap) (mode : Mode) (ev : KeyEvent)
    (hno : alookup (km.currentNode mode).children ev = none) :
    (∀ d : Nat, eventToDigit ev = some d →
      km.traverse mode ev = ({ km with numericCount := some d }, none)) ∧
    (eventToDigit ev = none → km.traverse mode ev = (km, some ev)) := by
  constructor
  · intro d hd
    simp [Keymap.traverse, hno, hd]
  · intro hd
    simp [Keymap.traverse, hno, hd]

/-- C4 witness: the mid-sequence digit `1` is consumed into the prefix. -/
theorem c4_no_match_digit_behavior_witness :
    c4Pending.traverse Mode.NORMAL (ch '1') =
      ({ c4Pending with numericCount := some 1 }, none) :=
  (c4_no_match_digit_behavior c4Pending Mode.NORMAL (ch '1') rfl).1 1 rfl

/-- C5 counterexample: digits do not accumulate decimally.  On a 10-line
buffer with the default NORMAL bindings, sending `1` then `2` then `j` moves
the cursor down 2 rows (the `2` overwrote the `1`), not the 9 rows (12 clamped
to the last line) the claim's count of 12 would give, and not 12. -/
theorem c5_digits_do_not_accumulate_counterexample :
    (sendKeys noFile [ch '1', ch '2', ch 'j'] st10).core.display.cursor.y = 2 ∧
    (sendKeys noFile [ch '1', ch '2', ch 'j'] st10).core.display.cursor.y ≠ 9 ∧
    (sendKeys noFile [ch '1', ch '2', ch 'j'] st10).core.display.cursor.y ≠ 12 :=
  ⟨rfl, by decide, by decide⟩

/-- C5 (amended): each otherwise-unmatched digit keystroke overwrites the
repeat count instead of accumulating (`1` then `2` gives count 2); when an
action fires it runs count times sequentially, the count is consumed exactly
once (a following `j` moves only 1), and it defaults to 1: on a 10-line buffer
with NORMAL `j` bound to move down one row, `3` then `j` moves the cursor down
3 rows, and a count larger than the remaining rows is clamped at the last
buffer line. -/
theorem c5_repeat_count_semantics :
    (sendKeys noFile [ch '3', ch 'j'] st10).core.display.cursor.y = 3 ∧
    (sendKeys noFile [ch '3', ch 'j'] st10).km.numericCount = none ∧
    (sendKeys noFile [ch 'j'] st10).core.display.cursor.y = 1 ∧
    (sendKeys noFile [ch '1', ch '2', ch 'j'] st10).core.display.cursor.y = 2 ∧
    (sendKeys noFile [ch '3', ch 'j', ch 'j'] st10).core.display.cursor.y = 4 ∧
    (sendKeys noFile [ch '9', ch 'j'] st10at5).core.display.cursor.y = 9 ∧
    st10.core.buffer.length = 10 :=
  ⟨rfl, rfl, rfl, rfl, rfl, rfl, rfl⟩

/-- C6: a purely vertical `move_by` (`dx = 0`, `dy ≠ 0`) never changes the
sticky column; any horizontal `move_by` sets it to the saturated new column
and `move_x` sets it to the jumped-to column; and on lines
`abcdef` / `xy` / `abcdef` with the cursor at column 5 of row 0, three
successive down-moves pass through column 2 on row 1 (sticky target 5 kept)
and end at column 5 of row 2. -/
theorem c6_sticky_column (c : Cursor) (buf : Buffer) (dx dy dy2 : Int) (col : Nat)
    (_hdy : dy ≠ 0) (hdx : dx ≠ 0) :
    (c.move_by (0, dy) buf).max_column = c.max_column ∧
    (c.move_by (dx, dy2) buf).max_column = saturate c.x dx ∧
    (c.move_x col buf).max_column = col ∧
    downMove ⟨5, 0, 5⟩ = ⟨2, 1, 5⟩ ∧
    downMove (downMove ⟨5, 0, 5⟩) = ⟨5, 2, 5⟩ ∧
    downMove (downMove (downMove ⟨5, 0, 5⟩)) = ⟨5, 2, 5⟩ := by
  refine ⟨?_, ?_, ?_, by decide, by decide, by decide⟩
  · simp [Cursor.move_by, Cursor.validate_cursor]
  · simp [Cursor.move_by, Cursor.validate_cursor, hdx]
  · simp [Cursor.move_x, Cursor.validate_cursor]

/-- C6 witness: instantiated on the three-line fixture. -/
theorem c6_sticky_column_witness :
    (Cursor.move_by ⟨5, 0, 5⟩ (0, 1) stickyBuf).max_column = Cursor.max_column ⟨5, 0, 5⟩ ∧
    (Cursor.move_by ⟨5, 0, 5⟩ (1, 0) stickyBuf).max_column = saturate 5 1 ∧
    (Cursor.move_x ⟨5, 0, 5⟩ 7 stickyBuf).max_column = 7 ∧
    downMove ⟨5, 0, 5⟩ = ⟨2, 1, 5⟩ ∧
    downMove (downMove ⟨5, 0, 5⟩) = ⟨5, 2, 5⟩ ∧
    downMove (downMove (downMove ⟨5, 0, 5⟩)) = ⟨5, 2, 5⟩ :=
  c6_sticky_column ⟨5, 0, 5⟩ stickyBuf 1 1 0 7 (by decide) (by decide)

/-- C7: `validate_offset` does not scroll the axes independently or minimally.
With size 80 by 24, offset (0, 90) and the cursor at column 80 of row 100
(one column right of the window, vertically inside it), the code leaves the
horizontal offset at 0 — the cursor is still outside the window — and rewrites
the vertical offset from 90 to 77 (the horizontal-overflow branch assigns
`offset.1` from `cursor.1 - size.0 + 1`).  Moreover the offset is not
recomputed after every cursor change at all: five NORMAL-mode `j` presses on a
4-row terminal leave the cursor on row 5 with the offset still (0, 0). -/
theorem c7_validate_offset_defects :
    c7Disp.cursor.y < c7Disp.offset.2 + c7Disp.size.2 ∧
    (c7Disp.validate_offset).offset = (0, 77) ∧
    (c7Disp.validate_offset).offset.2 ≠ c7Disp.offset.2 ∧
    ¬ ((c7Disp.validate_offset).cursor.x <
        (c7Disp.validate_offset).offset.1 + (c7Disp.validate_offset).size.1) ∧
    (sendKeys noFile [ch 'j', ch 'j', ch 'j', ch 'j', ch 'j']
      st10short).core.display.offset = (0, 0) ∧
    (sendKeys noFile [ch 'j', ch 'j', ch 'j', ch 'j', ch 'j']
      st10short).core.display.cursor.y = 5 ∧
    st10short.core.display.size.2 = 4 :=
  ⟨by decide, rfl, by decide, by decide, rfl, rfl, rfl⟩

/-- C8 counterexample: the round trip is not byte-identical for every content
whose lines are separated by a single newline with no trailing newline: for
`a`, CR, LF, `b` — whose only separator is the single LF and which has no
trailing newline — load strips the CR (BufRead lines removes a CR-LF pair),
so saving writes `a`, LF, `b` instead of the original bytes. -/
theorem c8_crlf_roundtrip_counterexample :
    ("a\r\nb".toList.getLast? ≠ some '\n') ∧
    (((Core.new (80, 24)).load_file ['f'] c8WorldCRLF).save_file ['f']).2 = "a\nb".toList ∧
    (((Core.new (80, 24)).load_file ['f'] c8WorldCRLF).save_file ['f']).2 ≠ "a\r\nb".toList :=
  ⟨by decide, rfl, by decide⟩

/-- C8 (amended): loading a file and saving it back with no edits reproduces
the content byte-identically for every content with no trailing newline and no
carriage return directly before a newline: load splits on newline boundaries
(stripping a CR that precedes a newline), save joins with single newlines and
appends nothing further. -/
theorem c8_roundtrip_no_trailing_newline_no_crlf (size : Nat × Nat)
    (f content : List Char) (w : World) (hw : w f = some content)
    (h1 : noCRLF content = true) (h2 : content.getLast? ≠ some '\n') :
    (((Core.new size).load_file f w).save_file f).2 = content := by
  show joinNL ((Core.new size).load_file f w).buffer = content
  simp only [Core.load_file, hw]
  exact joinNL_rustLines content h1 h2

/-- C8 witness: the two-line file `ab`, newline, `cd` round-trips exactly. -/
theorem c8_roundtrip_witness :
    (((Core.new (80, 24)).load_file ['f'] c8World).save_file ['f']).2 = "ab\ncd".toList :=
  c8_roundtrip_no_trailing_newline_no_crlf (80, 24) ['f'] ("ab\ncd".toList) c8World
    (by decide) (by decide) (by decide)

/-- C9: the emitted text of a visible row is NOT the cursor-independent
offset-and-width clipped slice: the guard `line.len() > cursor.position.0`
makes any line no longer than the cursor's column render as empty.  With
buffer `abcdef` / `xy`, offset 0 and the cursor at column 5, row 1 renders as
the empty string although its claimed slice is `xy`; moving the cursor to
column 0 makes the very same row render `xy`.  Rows past the end of the
buffer do get the `~` filler. -/
theorem c9_trimmed_line_depends_on_cursor :
    (c9Disp.render_rows c9Buf Mode.NORMAL none) =
      ["abcdef".toList, [], ['~'], ['~']] ∧
    trimmed_line "xy".toList 5 0 80 = [] ∧
    trimmed_line "xy".toList 0 0 80 = "xy".toList ∧
    trimmed_line "xy".toList c9Disp.cursor.x c9Disp.offset.1 80 ≠
      ("xy".toList.drop 0).take 80 ∧
    c9Disp.offset.1 = 0 :=
  ⟨rfl, rfl, rfl, by decide, rfl⟩

/-- C10 counterexample: the `$` target-column computation is not total on
every reachable state — on the startup buffer's single empty line (length 0,
a reachable state) the `u16` computation `line.len() - 1` underflows, and the
release-build wrap makes the bound action store 65535 as the sticky column. -/
theorem c10_dollar_underflow_counterexample :
    ((Core.new (80, 24)).buffer.getD (Core.new (80, 24)).display.cursor.y []).length = 0 ∧
    dollarUnderflows 0 ∧
    dollarTargetCol 0 = 65535 ∧
    (dispatch noFile false (some (ch '$')) (initEditor (80, 24))).core.display.cursor.max_column
      = 65535 :=
  ⟨rfl, by unfold dollarUnderflows; decide, rfl, rfl⟩

/-- C10 (amended): the `$` target-column computation underflows exactly when
the current line is empty: for any `u16` line length that is nonzero it
computes `len - 1` without underflow, while at length 0 it underflows
(wrapping to 65535). -/
theorem c10_dollar_target_nonempty_line (len : Nat) (h : len % 65536 ≠ 0) :
    ¬ dollarUnderflows len ∧ dollarTargetCol len = len % 65536 - 1 ∧ dollarUnderflows 0 := by
  refine ⟨?_, ?_, by unfold dollarUnderflows; decide⟩
  · unfold dollarUnderflows
    omega
  · unfold dollarTargetCol wSub
    omega

/-- C10 witness: a line of length 6 gives target column 5 with no underflow. -/
theorem c10_dollar_target_nonempty_line_witness :
    ¬ dollarUnderflows 6 ∧ dollarTargetCol 6 = 6 % 65536 - 1 ∧ dollarUnderflows 0 :=
  c10_dollar_target_nonempty_line 6 (by decide)

end TextEditor
